import Mathlib

/-!
Verification development for the Kickstarter crawler (src/crawler.py).

The Python source is shallowly embedded: pure helper functions become Lean
functions on String/Int/Nat, BeautifulSoup element lookups become Option-valued
fields of record types, exceptions become Except, and the crawl loop becomes a
recursive function over a finite prefix of the unbounded discover-page stream
(the discover iterator of the source never terminates by itself, so a run is
modelled by the list of pages it consumes). Python string operations are
modelled over the character list of a String so that every definition reduces
by computation.
-/

instance {ε α : Type} [DecidableEq ε] [DecidableEq α] : DecidableEq (Except ε α) :=
  fun x y =>
    match x, y with
    | Except.error e, Except.error f =>
      if h : e = f then Decidable.isTrue (by rw [h])
      else Decidable.isFalse (fun hh => h (Except.error.inj hh))
    | Except.error _, Except.ok _ => Decidable.isFalse (fun hh => Except.noConfusion hh)
    | Except.ok _, Except.error _ => Decidable.isFalse (fun hh => Except.noConfusion hh)
    | Except.ok a, Except.ok b =>
      if h : a = b then Decidable.isTrue (by rw [h])
      else Decidable.isFalse (fun hh => h (Except.ok.inj hh))

/-! ## Python string primitives used by the source -/

/-- Python str.strip(): remove leading and trailing whitespace. -/
def pyTrim (s : List Char) : List Char :=
  ((s.dropWhile Char.isWhitespace).reverse.dropWhile Char.isWhitespace).reverse

/-- Python str.find: index of the first occurrence of pat in s, or -1. -/
def pyFind (s pat : List Char) : Int :=
  match (List.range (s.length + 1)).find? (fun i => decide ((s.drop i).take pat.length = pat)) with
  | some i => (i : Int)
  | none => -1

/-- Python slicing s[:k]: a negative k counts from the end, clamped at 0. -/
def pySlice (s : List Char) (k : Int) : List Char :=
  if k < 0 then s.take ((s.length : Int) + k).toNat else s.take k.toNat

/-- Python s.split(' '): split at every single space, keeping empty pieces. -/
def pySplitSpace : List Char → List (List Char)
  | [] => [[]]
  | c :: rest =>
    let r := pySplitSpace rest
    if c = ' ' then [] :: r
    else
      match r with
      | [] => [[c]]
      | h :: t => (c :: h) :: t

/-- Value of a list of decimal digit characters read left to right. -/
def digitsToNat (ds : List Char) : Nat :=
  ds.foldl (fun a c => 10 * a + (c.toNat - 48)) 0

/-- Decimal digit-string parse; None unless the string is nonempty and all
digits (the rarely used underscore grouping of Python numerals is not
modelled). -/
def pyParseNat (s : List Char) : Option Nat :=
  if s.isEmpty then none
  else if s.all Char.isDigit then some (digitsToNat s) else none

/-- Python int(text) on free-form text: strip whitespace, optional sign, then
decimal digits; None models ValueError. -/
def pyInt (s : List Char) : Option Int :=
  match pyTrim s with
  | '-' :: rest => (pyParseNat rest).map (fun n => -(n : Int))
  | '+' :: rest => (pyParseNat rest).map (fun n => (n : Int))
  | t => (pyParseNat t).map (fun n => (n : Int))

/-- Python `pat in s` substring test. -/
def pyContains (s pat : List Char) : Bool :=
  decide (0 ≤ pyFind s pat)

/-! ## Data model

FeedItem models one entry of `data['projects']` from a discover page, with the
fields the extractors read (spec section 6 requires the feed to expose them).
A Pledge models one `div.pledge__info` block; element lookups that may find
nothing are Option fields holding the element text before stripping. -/

structure FeedItem where
  url : String
  creator : String
  title : String
  pledged : Int
  backers : Int
  deadline : Int
  deriving DecidableEq, Repr

structure BackerStats where
  backerCount : Option String
  limit : Option String
  deriving DecidableEq, Repr

structure Pledge where
  description : Option String
  currency : Option String
  backerStats : Option BackerStats
  deriving DecidableEq, Repr

structure DetailDoc where
  html : String
  allOrNothingBadge : Option String
  pledges : List Pledge
  deriving DecidableEq, Repr

structure Reward where
  text : String
  price : Nat
  numBackers : Int
  totalPossibleBackers : Int
  deriving DecidableEq, Repr

structure Record where
  id : Int
  url : String
  creator : String
  title : String
  text : String
  pledged : Int
  numBackers : Int
  daysToGo : Int
  allOrNothing : Bool
  rewards : List Reward
  deriving DecidableEq, Repr

/-! ## Field extractors (src/crawler.py lines 44-129) -/

/-- src line 44: int(''.join(filter(str.isdigit, string))); int('') raises. -/
def get_digits (s : String) : Except String Nat :=
  let ds := s.data.filter Char.isDigit
  if ds.isEmpty then Except.error "ValueError" else Except.ok (digitsToNat ds)

/-- src line 49: the global counter project_id.id is pre-incremented and
returned; modelled by threading the counter value explicitly. -/
def project_id (cnt : Int) : Int × Int := (cnt + 1, cnt + 1)

/-- src line 57: url[:url.find('?ref')] applied to project['urls']['web']['project']
(the dictionary access is modelled by the url field of FeedItem). -/
def project_url (url : String) : String :=
  ⟨pySlice url.data (pyFind url.data "?ref".data)⟩

/-- src line 67: project['creator']['name']. -/
def project_creator (p : FeedItem) : String := p.creator

/-- src line 75: project['name']. -/
def project_title (p : FeedItem) : String := p.title

/-- src line 83: returns kargs['html'] unchanged; the html2text conversion in
the source is commented out. -/
def project_text (html : String) : String := html

/-- src line 91: float(project['converted_pledged_amount']); the float
coercion is modelled as the identity on the integral amount. -/
def project_pledged (p : FeedItem) : Int := p.pledged

/-- src line 99: project['backers_count']. -/
def project_backers (p : FeedItem) : Int := p.backers

/-- src line 107: (utcfromtimestamp(deadline) - datetime.now()).days.
Both datetimes are modelled as epoch seconds; timedelta.days is floor
division of the signed second difference by 86400 (Python // semantics). -/
def project_days (deadline now : Int) : Int :=
  Int.fdiv (deadline - now) 86400

/-- src line 116: True iff the badge span exists and its text contains
'All or nothing'; False when the span is absent. -/
def project_all_nothing (d : DetailDoc) : Bool :=
  match d.allOrNothingBadge with
  | none => false
  | some t => pyContains t.data "All or nothing".data

/-! ## Reward (pledge) extractors (src lines 132-187) -/

/-- src line 132: find the expanded description div and return its stripped
text; a missing div raises AttributeError. -/
def pledge_text (p : Pledge) : Except String String :=
  match p.description with
  | none => Except.error "AttributeError"
  | some s => Except.ok ⟨pyTrim s.data⟩

/-- src line 142: stripped text of the currency-conversion span fed to
get_digits; a missing span raises AttributeError. -/
def pledge_price (p : Pledge) : Except String Nat :=
  match p.currency with
  | none => Except.error "AttributeError"
  | some s => get_digits ⟨pyTrim s.data⟩

/-- src line 150: backer count span inside the backer-stats div; the text up
to ' backer' with commas removed is fed to int(). -/
def pledge_backers (p : Pledge) : Except String Int :=
  match p.backerStats with
  | none => Except.error "AttributeError"
  | some bs =>
    match bs.backerCount with
    | none => Except.error "AttributeError"
    | some t =>
      let b := pyTrim t.data
      let b := pySlice b (pyFind b " backer".data)
      let b := b.filter (fun c => c ≠ ',')
      match pyInt b with
      | some n => Except.ok n
      | none => Except.error "ValueError"

/-- src line 163: -1 when the limit span is absent; the current backer count
when the stripped text is 'Reward no longer available'; otherwise
int(text.split(' ')[-1][:-1]) with ValueError contained to -2. -/
def pledge_total_backers (p : Pledge) : Except String Int :=
  match p.backerStats with
  | none => Except.error "AttributeError"
  | some bs =>
    match bs.limit with
    | none => Except.ok (-1)
    | some t0 =>
      let text := pyTrim t0.data
      if text = "Reward no longer available".data then
        pledge_backers p
      else
        match pyInt (((pySplitSpace text).getLastD []).dropLast) with
        | some n => Except.ok n
        | none => Except.ok (-2)

/-! ## Per-item extraction (src crawl_project, lines 206-228) -/

/-- Sequencing of fallible extractions: the first error aborts, as an
uncaught Python exception does. -/
def mapE (f : α → Except String β) : List α → Except String (List β)
  | [] => Except.ok []
  | a :: l =>
    match f a with
    | Except.error e => Except.error e
    | Except.ok b =>
      match mapE f l with
      | Except.error e => Except.error e
      | Except.ok bs => Except.ok (b :: bs)

/-- src line 225: run the reward_func_map extractors in declared order
(Text, Price, NumBackers, TotalPossibleBackers) against one pledge block. -/
def extract_reward (p : Pledge) : Except String Reward :=
  match pledge_text p with
  | Except.error e => Except.error e
  | Except.ok t =>
    match pledge_price p with
    | Except.error e => Except.error e
    | Except.ok pr =>
      match pledge_backers p with
      | Except.error e => Except.error e
      | Except.ok nb =>
        match pledge_total_backers p with
        | Except.error e => Except.error e
        | Except.ok tpb => Except.ok ⟨t, pr, nb, tpb⟩

/-- src line 221: pledges[1:] — one reward per pledge block after the first. -/
def extract_rewards (ps : List Pledge) : Except String (List Reward) :=
  mapE extract_reward (ps.drop 1)

/-- src line 206: fetch the detail document of project_url(project), run the
field_func_map extractors in declared order, then the reward pass over
div.pledge__info blocks. The network fetch is the docOf oracle; cnt is the
value of the global id counter before this item. -/
def crawl_project (cnt : Int) (now : Int) (docOf : String → DetailDoc)
    (project : FeedItem) : Except String (Record × Int) :=
  match extract_rewards (docOf (project_url project.url)).pledges with
  | Except.error e => Except.error e
  | Except.ok rs =>
    Except.ok ({ id := (project_id cnt).1
               , url := project_url project.url
               , creator := project_creator project
               , title := project_title project
               , text := project_text (docOf (project_url project.url)).html
               , pledged := project_pledged project
               , numBackers := project_backers project
               , daysToGo := project_days project.deadline now
               , allOrNothing := project_all_nothing (docOf (project_url project.url))
               , rewards := rs }, (project_id cnt).2)

/-! ## Crawl loop (src crawl, lines 231-263) -/

/-- State of one run: the accumulated records, the crawled_urls set (as the
list of identifiers in insertion order) and the id counter (initially -1). -/
structure CrawlState where
  records : List Record
  crawled : List String
  cnt : Int
  deriving DecidableEq, Repr

/-- Inner loop over data['projects'] of one page: skip seen urls, otherwise
mark seen, crawl, append, and break once len(crawled_urls) == num_projects. -/
def crawlItems (q : Nat) (now : Int) (docOf : String → DetailDoc) :
    CrawlState → List FeedItem → Except String CrawlState
  | st, [] => Except.ok st
  | st, p :: rest =>
    if project_url p.url ∈ st.crawled then
      crawlItems q now docOf st rest
    else
      match crawl_project st.cnt now docOf p with
      | Except.error e => Except.error e
      | Except.ok (r, c') =>
        if (st.crawled ++ [project_url p.url]).length = q then
          Except.ok ⟨st.records ++ [r], st.crawled ++ [project_url p.url], c'⟩
        else
          crawlItems q now docOf
            ⟨st.records ++ [r], st.crawled ++ [project_url p.url], c'⟩ rest

/-- Outer loop over discover pages; the unbounded discover_url_iter is
modelled by the finite prefix of pages the run consumes. After each page the
loop breaks when len(crawled_urls) == num_projects. -/
def crawlPages (q : Nat) (now : Int) (docOf : String → DetailDoc) :
    CrawlState → List (List FeedItem) → Except String CrawlState
  | st, [] => Except.ok st
  | st, pg :: rest =>
    match crawlItems q now docOf st pg with
    | Except.error e => Except.error e
    | Except.ok st' =>
      if st'.crawled.length = q then Except.ok st'
      else crawlPages q now docOf st' rest

/-- src line 231: crawl(num_projects) starting from an empty result, an empty
crawled_urls set and counter -1. -/
def crawl (q : Nat) (now : Int) (docOf : String → DetailDoc)
    (pages : List (List FeedItem)) : Except String CrawlState :=
  crawlPages q now docOf ⟨[], [], -1⟩ pages

/-- src line 278: json.dump runs only when crawl returns normally; an
uncaught exception leaves the output file unwritten (None). -/
def write_output (res : Except String CrawlState) : Option (List Record) :=
  match res with
  | Except.ok st => some st.records
  | Except.error _ => none

/-- Modelled from the spec: the optional collaborator toPlainText(html) of
spec section 6 (the html2text import and call are commented out in the
source, so no plain-text rendering exists under src). A minimal rendering
that drops markup tags. -/
def toPlainText (html : String) : String :=
  ⟨(html.data.foldl
      (fun (acc : List Char × Bool) c =>
        if c = '<' then (acc.1, true)
        else if c = '>' then (acc.1, false)
        else if acc.2 then (acc.1, true)
        else (acc.1 ++ [c], false))
      ([], false)).1⟩

/-! ## Run invariant

Inv packages the facts maintained by the crawl loop: the urls of the emitted
records are exactly the crawled_urls set in insertion order, the id counter
trails the record count by one, ids are 0,1,2,... in emission order, and the
crawled_urls set has no duplicate. -/

def CrawlInv (st : CrawlState) : Prop :=
  st.records.map (fun r => r.url) = st.crawled
  ∧ st.cnt = (st.records.length : Int) - 1
  ∧ st.records.map (fun r => r.id) = (List.range st.records.length).map Int.ofNat
  ∧ st.crawled.Nodup

/-! ## Concrete run fixtures used by witnesses -/

def docW : DetailDoc := { html := "h", allOrNothingBadge := none, pledges := [] }

def docOfW : String → DetailDoc := fun _ => docW

def pW1 : FeedItem :=
  { url := "u1?ref=x", creator := "c", title := "t", pledged := 1, backers := 2, deadline := 0 }

def pW2 : FeedItem :=
  { url := "u2?ref=x", creator := "c", title := "t", pledged := 1, backers := 2, deadline := 0 }

def recW1 : Record :=
  { id := 0, url := "u1", creator := "c", title := "t", text := "h", pledged := 1
  , numBackers := 2, daysToGo := 0, allOrNothing := false, rewards := [] }

def recW2 : Record :=
  { id := 1, url := "u2", creator := "c", title := "t", text := "h", pledged := 1
  , numBackers := 2, daysToGo := 0, allOrNothing := false, rewards := [] }

def stW1 : CrawlState := { records := [recW1], crawled := ["u1"], cnt := 0 }

def stW2 : CrawlState := { records := [recW1, recW2], crawled := ["u1", "u2"], cnt := 1 }

/-- A pledge block every reward extractor accepts. -/
def plGood : Pledge :=
  { description := some " d ", currency := some "$10"
  , backerStats := some { backerCount := some "5 backers", limit := none } }

/-- The first pledge block (the no-reward option): content never inspected. -/
def plSkip : Pledge := { description := none, currency := none, backerStats := none }

/-- A pledge block whose currency-conversion span is absent: pledge_price
raises AttributeError. -/
def plBad : Pledge :=
  { description := some "d", currency := none
  , backerStats := some { backerCount := some "5 backers", limit := none } }

def rwGood : Reward := { text := "d", price := 10, numBackers := 5, totalPossibleBackers := -1 }

def docA : DetailDoc := { html := "h", allOrNothingBadge := none, pledges := [plSkip, plGood] }

def docOfA : String → DetailDoc := fun _ => docA

def docB : DetailDoc := { html := "h", allOrNothingBadge := none, pledges := [plSkip] }

def docOfB : String → DetailDoc := fun _ => docB

def docBad : DetailDoc := { html := "h", allOrNothingBadge := none, pledges := [plSkip, plBad] }

def docOfBad : String → DetailDoc := fun _ => docBad

def recA : Record :=
  { id := 0, url := "u1", creator := "c", title := "t", text := "h", pledged := 1
  , numBackers := 2, daysToGo := 0, allOrNothing := false, rewards := [rwGood] }

def recB : Record :=
  { id := 0, url := "u1", creator := "c", title := "t", text := "h", pledged := 1
  , numBackers := 2, daysToGo := 0, allOrNothing := false, rewards := [] }

/-! ## Helper lemmas about the per-item pass -/

theorem crawl_project_ok (cnt now : Int) (docOf : String → DetailDoc) (p : FeedItem)
    (r : Record) (c' : Int) (h : crawl_project cnt now docOf p = Except.ok (r, c')) :
    c' = cnt + 1 ∧ r.id = cnt + 1 ∧ r.url = project_url p.url
    ∧ r.text = (docOf (project_url p.url)).html
    ∧ mapE extract_reward ((docOf (project_url p.url)).pledges.drop 1) = Except.ok r.rewards := by
  unfold crawl_project at h
  cases hm : extract_rewards (docOf (project_url p.url)).pledges with
  | error e => rw [hm] at h; exact Except.noConfusion h
  | ok rs =>
    rw [hm] at h
    injection h with h1
    rw [Prod.mk.injEq] at h1
    obtain ⟨hr, hc⟩ := h1
    subst hr; subst hc
    exact ⟨rfl, rfl, rfl, rfl, hm⟩

theorem mapE_ok_length (f : α → Except String β) :
    ∀ (l : List α) (bs : List β), mapE f l = Except.ok bs → bs.length = l.length := by
  intro l
  induction l with
  | nil =>
    intro bs h
    unfold mapE at h
    injection h with h1
    subst h1
    rfl
  | cons a t ih =>
    intro bs h
    unfold mapE at h
    cases hf : f a with
    | error e => rw [hf] at h; exact Except.noConfusion h
    | ok b =>
      rw [hf] at h
      cases hm : mapE f t with
      | error e => rw [hm] at h; exact Except.noConfusion h
      | ok cs =>
        rw [hm] at h
        injection h with h1
        subst h1
        simp [ih cs hm]

/-! ## Helper lemmas about the crawl loop -/

theorem inv_init : CrawlInv ⟨[], [], -1⟩ := by
  refine ⟨rfl, by simp, by simp, List.nodup_nil⟩

theorem inv_snoc (st : CrawlState) (r : Record) (u : String) (c' : Int)
    (h : CrawlInv st) (hu : r.url = u) (hid : r.id = st.cnt + 1) (hc : c' = st.cnt + 1)
    (hmem : u ∉ st.crawled) :
    CrawlInv ⟨st.records ++ [r], st.crawled ++ [u], c'⟩ := by
  obtain ⟨h1, h2, h3, h4⟩ := h
  have hcnt : st.cnt + 1 = (st.records.length : Int) := by omega
  refine ⟨?_, ?_, ?_, ?_⟩
  · simp [h1, hu]
  · simp only [List.length_append, List.length_cons, List.length_nil]
    push_cast
    omega
  · simp only [List.map_append, List.map_cons, List.map_nil, h3, hid, hcnt,
      List.length_append, List.length_cons, List.length_nil, List.range_succ]
    simp [Int.ofNat_eq_coe]
  · simp [List.nodup_append, h4, hmem]

theorem crawlItems_inv (q : Nat) (now : Int) (docOf : String → DetailDoc) :
    ∀ (items : List FeedItem) (st st' : CrawlState),
      CrawlInv st → crawlItems q now docOf st items = Except.ok st' → CrawlInv st' := by
  intro items
  induction items with
  | nil =>
    intro st st' h hok
    simp only [crawlItems] at hok
    injection hok with h1
    subst h1
    exact h
  | cons p rest ih =>
    intro st st' h hok
    simp only [crawlItems] at hok
    split at hok
    next hmem => exact ih st st' h hok
    next hmem =>
      split at hok
      next e heq => exact Except.noConfusion hok
      next r c' heq =>
        obtain ⟨hc', hid, hurl, -, -⟩ := crawl_project_ok _ _ _ _ _ _ heq
        have hinv1 : CrawlInv ⟨st.records ++ [r], st.crawled ++ [project_url p.url], c'⟩ :=
          inv_snoc st r (project_url p.url) c' h hurl hid hc' hmem
        split at hok
        next hq =>
          injection hok with h1
          subst h1
          exact hinv1
        next hq => exact ih _ st' hinv1 hok

theorem crawlItems_len_le (q : Nat) (now : Int) (docOf : String → DetailDoc) :
    ∀ (items : List FeedItem) (st st' : CrawlState),
      st.crawled.length < q → crawlItems q now docOf st items = Except.ok st' →
      st'.crawled.length ≤ q := by
  intro items
  induction items with
  | nil =>
    intro st st' hlt hok
    simp only [crawlItems] at hok
    injection hok with h1
    subst h1
    omega
  | cons p rest ih =>
    intro st st' hlt hok
    simp only [crawlItems] at hok
    split at hok
    next hmem => exact ih st st' hlt hok
    next hmem =>
      split at hok
      next e heq => exact Except.noConfusion hok
      next r c' heq =>
        split at hok
        next hq =>
          injection hok with h1
          subst h1
          exact Nat.le_of_eq hq
        next hq =>
          apply ih _ st' _ hok
          show (st.crawled ++ [project_url p.url]).length < q
          simp only [List.length_append, List.length_cons, List.length_nil] at hq ⊢
          omega

theorem crawlItems_mono (q : Nat) (now : Int) (docOf : String → DetailDoc) :
    ∀ (items : List FeedItem) (st st' : CrawlState),
      crawlItems q now docOf st items = Except.ok st' →
      ∀ u, u ∈ st.crawled → u ∈ st'.crawled := by
  intro items
  induction items with
  | nil =>
    intro st st' hok u hu
    simp only [crawlItems] at hok
    injection hok with h1
    subst h1
    exact hu
  | cons p rest ih =>
    intro st st' hok u hu
    simp only [crawlItems] at hok
    split at hok
    next hmem => exact ih st st' hok u hu
    next hmem =>
      split at hok
      next e heq => exact Except.noConfusion hok
      next r c' heq =>
        split at hok
        next hq =>
          injection hok with h1
          subst h1
          exact List.mem_append_left _ hu
        next hq => exact ih _ st' hok u (List.mem_append_left _ hu)

theorem crawlItems_all_seen (q : Nat) (now : Int) (docOf : String → DetailDoc) :
    ∀ (items : List FeedItem) (st st' : CrawlState),
      crawlItems q now docOf st items = Except.ok st' → st'.crawled.length ≠ q →
      ∀ p ∈ items, project_url p.url ∈ st'.crawled := by
  intro items
  induction items with
  | nil =>
    intro st st' hok hne p hp
    exact absurd hp (List.not_mem_nil p)
  | cons p0 rest ih =>
    intro st st' hok hne p hp
    simp only [crawlItems] at hok
    split at hok
    next hmem =>
      rcases List.mem_cons.mp hp with rfl | hp'
      · exact crawlItems_mono q now docOf rest st st' hok _ hmem
      · exact ih st st' hok hne p hp'
    next hmem =>
      split at hok
      next e heq => exact Except.noConfusion hok
      next r c' heq =>
        split at hok
        next hq =>
          injection hok with h1
          subst h1
          exact absurd hq hne
        next hq =>
          rcases List.mem_cons.mp hp with rfl | hp'
          · exact crawlItems_mono q now docOf rest _ st' hok _ (by simp)
          · exact ih _ st' hok hne p hp'

theorem crawlPages_inv (q : Nat) (now : Int) (docOf : String → DetailDoc) :
    ∀ (pages : List (List FeedItem)) (st st' : CrawlState),
      CrawlInv st → crawlPages q now docOf st pages = Except.ok st' → CrawlInv st' := by
  intro pages
  induction pages with
  | nil =>
    intro st st' h hok
    simp only [crawlPages] at hok
    injection hok with h1
    subst h1
    exact h
  | cons pg rest ih =>
    intro st st' h hok
    simp only [crawlPages] at hok
    split at hok
    next e heq => exact Except.noConfusion hok
    next st1 heq =>
      have h1 : CrawlInv st1 := crawlItems_inv q now docOf pg st st1 h heq
      split at hok
      next hq =>
        injection hok with h2
        subst h2
        exact h1
      next hq => exact ih st1 st' h1 hok

theorem crawlPages_len_le (q : Nat) (now : Int) (docOf : String → DetailDoc) :
    ∀ (pages : List (List FeedItem)) (st st' : CrawlState),
      st.crawled.length < q → crawlPages q now docOf st pages = Except.ok st' →
      st'.crawled.length ≤ q := by
  intro pages
  induction pages with
  | nil =>
    intro st st' hlt hok
    simp only [crawlPages] at hok
    injection hok with h1
    subst h1
    omega
  | cons pg rest ih =>
    intro st st' hlt hok
    simp only [crawlPages] at hok
    split at hok
    next e heq => exact Except.noConfusion hok
    next st1 heq =>
      have h1 : st1.crawled.length ≤ q := crawlItems_len_le q now docOf pg st st1 hlt heq
      split at hok
      next hq =>
        injection hok with h2
        subst h2
        omega
      next hq =>
        exact ih st1 st' (by omega) hok

theorem crawlPages_mono (q : Nat) (now : Int) (docOf : String → DetailDoc) :
    ∀ (pages : List (List FeedItem)) (st st' : CrawlState),
      crawlPages q now docOf st pages = Except.ok st' →
      ∀ u, u ∈ st.crawled → u ∈ st'.crawled := by
  intro pages
  induction pages with
  | nil =>
    intro st st' hok u hu
    simp only [crawlPages] at hok
    injection hok with h1
    subst h1
    exact hu
  | cons pg rest ih =>
    intro st st' hok u hu
    simp only [crawlPages] at hok
    split at hok
    next e heq => exact Except.noConfusion hok
    next st1 heq =>
      have h1 := crawlItems_mono q now docOf pg st st1 heq u hu
      split at hok
      next hq =>
        injection hok with h2
        subst h2
        exact h1
      next hq => exact ih st1 st' hok u h1

theorem crawlPages_all_seen (q : Nat) (now : Int) (docOf : String → DetailDoc) :
    ∀ (pages : List (List FeedItem)) (st st' : CrawlState),
      crawlPages q now docOf st pages = Except.ok st' → st'.crawled.length ≠ q →
      ∀ pg ∈ pages, ∀ p ∈ pg, project_url p.url ∈ st'.crawled := by
  intro pages
  induction pages with
  | nil =>
    intro st st' hok hne pg hpg p hp
    exact absurd hpg (List.not_mem_nil pg)
  | cons pg0 rest ih =>
    intro st st' hok hne pg hpg p hp
    simp only [crawlPages] at hok
    split at hok
    next e heq => exact Except.noConfusion hok
    next st1 heq =>
      split at hok
      next hq =>
        injection hok with h2
        subst h2
        exact absurd hq hne
      next hq =>
        rcases List.mem_cons.mp hpg with rfl | hpg'
        · have h1 := crawlItems_all_seen q now docOf pg st st1 heq hq p hp
          exact crawlPages_mono q now docOf rest st1 st' hok _ h1
        · exact ih st1 st' hok hne pg hpg' p hp

theorem crawlPages_cons_ok (q : Nat) (now : Int) (docOf : String → DetailDoc)
    (st : CrawlState) (pg : List FeedItem) (rest : List (List FeedItem)) (st1 : CrawlState)
    (heq : crawlItems q now docOf st pg = Except.ok st1) :
    crawlPages q now docOf st (pg :: rest) =
      if st1.crawled.length = q then Except.ok st1
      else crawlPages q now docOf st1 rest := by
  simp only [crawlPages, heq]

theorem crawlPages_append (q : Nat) (now : Int) (docOf : String → DetailDoc) :
    ∀ (pages : List (List FeedItem)) (st st' : CrawlState) (more : List (List FeedItem)),
      st.crawled.length ≠ q → crawlPages q now docOf st pages = Except.ok st' →
      st'.crawled.length = q →
      crawlPages q now docOf st (pages ++ more) = Except.ok st' := by
  intro pages
  induction pages with
  | nil =>
    intro st st' more hne hok hq
    simp only [crawlPages] at hok
    injection hok with h1
    subst h1
    exact absurd hq hne
  | cons pg rest ih =>
    intro st st' more hne hok hq
    cases heq : crawlItems q now docOf st pg with
    | error e =>
      simp only [crawlPages, heq] at hok
      exact Except.noConfusion hok
    | ok st1 =>
      rw [crawlPages_cons_ok q now docOf st pg rest st1 heq] at hok
      rw [List.cons_append, crawlPages_cons_ok q now docOf st pg (rest ++ more) st1 heq]
      by_cases hq1 : st1.crawled.length = q
      · rw [if_pos hq1] at hok ⊢
        exact hok
      · rw [if_neg hq1] at hok ⊢
        exact ih st1 st' more hq1 hok hq

theorem crawl_inv (q : Nat) (now : Int) (docOf : String → DetailDoc)
    (pages : List (List FeedItem)) (st : CrawlState)
    (h : crawl q now docOf pages = Except.ok st) : CrawlInv st :=
  crawlPages_inv q now docOf pages ⟨[], [], -1⟩ st inv_init h

theorem crawl_records_eq_crawled (st : CrawlState) (h : CrawlInv st) :
    st.records.length = st.crawled.length := by
  have h1 := h.1
  calc st.records.length = (st.records.map (fun r => r.url)).length := by simp
    _ = st.crawled.length := by rw [h1]

/-! ## Extra fixtures for claim witnesses -/

def bsLim10 : BackerStats :=
  { backerCount := some "7 backers", limit := some "Limited (3 left of 10)" }

def plLim10 : Pledge :=
  { description := some "d", currency := some "$1", backerStats := some bsLim10 }

def bsSold : BackerStats :=
  { backerCount := some "7 backers", limit := some "Limited (sold out)" }

def plSold : Pledge :=
  { description := some "d", currency := some "$1", backerStats := some bsSold }

def bsNLA : BackerStats :=
  { backerCount := some "7 backers", limit := some "Reward no longer available" }

def plNLA : Pledge :=
  { description := some "d", currency := some "$1", backerStats := some bsNLA }

/-- A pledge whose currency-conversion text has no digit at all. -/
def plNoDigit : Pledge :=
  { description := some "x", currency := some "$$", backerStats := none }

/-! ## Claim theorems -/

/-- C1, counterexample: with requested quota q = 0 the crawl of a one-item
feed still collects one record, so the bound |CrawlResult| ≤ q fails at q = 0
(the quota test of src lines 258-260 runs only after a record is appended). -/
theorem C1_counterexample :
    crawl 0 0 docOfW [[pW1]] = Except.ok stW1
    ∧ 0 < stW1.records.length := by
  constructor
  · decide
  · decide

/-- C1, amended: for every quota q ≥ 1, every successful run satisfies
|CrawlResult| ≤ q; the loop stops the moment |CrawlResult| = q (appending
further discover pages leaves the result unchanged), and |CrawlResult| = q
whenever the consumed feed prefix offers at least q distinct item urls. -/
theorem C1_quota_invariant (q : Nat) (now : Int) (docOf : String → DetailDoc)
    (pages : List (List FeedItem)) (st : CrawlState)
    (hq : 1 ≤ q) (h : crawl q now docOf pages = Except.ok st) :
    st.records.length ≤ q
    ∧ (st.records.length = q → ∀ more, crawl q now docOf (pages ++ more) = Except.ok st)
    ∧ (q ≤ (pages.flatten.map (fun p => project_url p.url)).toFinset.card →
        st.records.length = q) := by
  have hinv := crawl_inv q now docOf pages st h
  have hlen := crawl_records_eq_crawled st hinv
  have h0 : (⟨[], [], -1⟩ : CrawlState).crawled.length < q := by
    show 0 < q
    omega
  have hb : st.crawled.length ≤ q := crawlPages_len_le q now docOf pages _ st h0 h
  refine ⟨by omega, ?_, ?_⟩
  · intro hfull more
    have hne : (⟨[], [], -1⟩ : CrawlState).crawled.length ≠ q := by
      show (0 : Nat) ≠ q
      omega
    exact crawlPages_append q now docOf pages _ st more hne h (by omega)
  · intro hsup
    by_cases hful : st.crawled.length = q
    · omega
    · exfalso
      have hall := crawlPages_all_seen q now docOf pages _ st h hful
      have hsub : (pages.flatten.map (fun p => project_url p.url)).toFinset
          ⊆ st.crawled.toFinset := by
        intro u hu
        rw [List.mem_toFinset] at hu ⊢
        rw [List.mem_map] at hu
        obtain ⟨p, hp, rfl⟩ := hu
        rw [List.mem_flatten] at hp
        obtain ⟨pg, hpg, hp2⟩ := hp
        exact hall pg hpg p hp2
      have hcard := Finset.card_le_card hsub
      have hc2 := List.toFinset_card_le st.crawled
      omega

/-- C1, witness: quota 1 over a two-item page stops after the first item,
and appending one more page does not change the result. -/
theorem C1_witness :
    1 ≤ 1
    ∧ crawl 1 0 docOfW [[pW1, pW2]] = Except.ok stW1
    ∧ stW1.records.length ≤ 1
    ∧ crawl 1 0 docOfW ([[pW1, pW2]] ++ [[pW2]]) = Except.ok stW1
    ∧ stW1.records.length = 1 := by
  have h : crawl 1 0 docOfW [[pW1, pW2]] = Except.ok stW1 := by decide
  have hmain := C1_quota_invariant 1 0 docOfW [[pW1, pW2]] stW1 (by decide) h
  exact ⟨by decide, h, hmain.1, hmain.2.1 (by decide) [[pW2]], hmain.2.2 (by decide)⟩

/-- C2: in every successful run the crawled_urls set has no duplicate, and
the urls of the emitted records (in emission order) are exactly that set, so
no identifier occurs twice in CrawlResult or in the dedup set and each item
is extracted at most once. -/
theorem C2_no_duplicate_identifiers (q : Nat) (now : Int) (docOf : String → DetailDoc)
    (pages : List (List FeedItem)) (st : CrawlState)
    (h : crawl q now docOf pages = Except.ok st) :
    st.crawled.Nodup
    ∧ st.records.map (fun r => r.url) = st.crawled
    ∧ (st.records.map (fun r => r.url)).Nodup := by
  have hinv := crawl_inv q now docOf pages st h
  exact ⟨hinv.2.2.2, hinv.1, by rw [hinv.1]; exact hinv.2.2.2⟩

/-- C2, witness: the same item on two consecutive discover pages is crawled
once; the run keeps a single record and a duplicate-free dedup set. -/
theorem C2_witness :
    crawl 2 0 docOfW [[pW1], [pW1]] = Except.ok stW1
    ∧ stW1.crawled.Nodup
    ∧ stW1.records.map (fun r => r.url) = stW1.crawled
    ∧ stW1.records.length = 1 := by
  have h : crawl 2 0 docOfW [[pW1], [pW1]] = Except.ok stW1 := by decide
  have hm := C2_no_duplicate_identifiers 2 0 docOfW [[pW1], [pW1]] stW1 h
  exact ⟨h, hm.1, hm.2.1, by decide⟩

/-- C3: given the backer-stats block exists, pledge_total_backers returns -1
when the limit span is absent; the current backer count when the stripped
limit text reads "Reward no longer available"; the parsed trailing token
(last space-separated token, final character removed) when it parses as an
integer; and -2 when that parse fails. -/
theorem C3_total_backers_cases (p : Pledge) (bs : BackerStats)
    (hbs : p.backerStats = some bs) :
    (bs.limit = none → pledge_total_backers p = Except.ok (-1))
    ∧ (∀ t c, bs.limit = some t → pyTrim t.data = "Reward no longer available".data →
        pledge_backers p = Except.ok c → pledge_total_backers p = Except.ok c)
    ∧ (∀ t n, bs.limit = some t → pyTrim t.data ≠ "Reward no longer available".data →
        pyInt (((pySplitSpace (pyTrim t.data)).getLastD []).dropLast) = some n →
        pledge_total_backers p = Except.ok n)
    ∧ (∀ t, bs.limit = some t → pyTrim t.data ≠ "Reward no longer available".data →
        pyInt (((pySplitSpace (pyTrim t.data)).getLastD []).dropLast) = none →
        pledge_total_backers p = Except.ok (-2)) := by
  refine ⟨?_, ?_, ?_, ?_⟩
  · intro hl
    simp [pledge_total_backers, hbs, hl]
  · intro t c hl htr hb
    simp [pledge_total_backers, hbs, hl, htr, hb]
  · intro t n hl htr hp
    simp only [List.getLastD_eq_getLast?] at hp
    simp [pledge_total_backers, hbs, hl, htr, hp]
  · intro t hl htr hp
    simp only [List.getLastD_eq_getLast?] at hp
    simp [pledge_total_backers, hbs, hl, htr, hp]

/-- C3, witness: no limit span gives -1; "Limited (3 left of 10)" gives 10;
"Reward no longer available" with 7 current backers gives 7;
"Limited (sold out)" gives -2. -/
theorem C3_witness :
    pledge_total_backers plGood = Except.ok (-1)
    ∧ pledge_total_backers plLim10 = Except.ok 10
    ∧ pledge_total_backers plNLA = Except.ok 7
    ∧ pledge_total_backers plSold = Except.ok (-2) := by
  refine ⟨?_, ?_, ?_, ?_⟩
  · exact (C3_total_backers_cases plGood _ rfl).1 rfl
  · exact (C3_total_backers_cases plLim10 bsLim10 rfl).2.2.1
      "Limited (3 left of 10)" 10 rfl (by decide) (by decide)
  · exact (C3_total_backers_cases plNLA bsNLA rfl).2.1
      "Reward no longer available" 7 rfl (by decide) (by decide)
  · exact (C3_total_backers_cases plSold bsSold rfl).2.2.2
      "Limited (sold out)" rfl (by decide) (by decide)

/-- C4: evaluation at the failing input. With a tracking suffix the url is
stripped correctly, but a url without any '?ref' suffix is returned with its
final character removed (str.find returns -1 and url[:-1] drops one
character), not unchanged as claimed. -/
theorem C4_url_strip_eval :
    project_url "https://k/pr?ref=discovery" = "https://k/pr"
    ∧ project_url "https://k/pr" = "https://k/p"
    ∧ project_url "https://k/pr" ≠ "https://k/pr" := by
  refine ⟨by decide, by decide, by decide⟩

/-- C5: in every successful run the id fields of the emitted records, in
emission order, are exactly 0, 1, 2, ... . -/
theorem C5_ids_sequential (q : Nat) (now : Int) (docOf : String → DetailDoc)
    (pages : List (List FeedItem)) (st : CrawlState)
    (h : crawl q now docOf pages = Except.ok st) :
    st.records.map (fun r => r.id) = (List.range st.records.length).map Int.ofNat :=
  (crawl_inv q now docOf pages st h).2.2.1

/-- C5, witness: a two-item run emits ids [0, 1]. -/
theorem C5_witness :
    crawl 2 0 docOfW [[pW1, pW2]] = Except.ok stW2
    ∧ stW2.records.map (fun r => r.id) = (List.range stW2.records.length).map Int.ofNat
    ∧ stW2.records.map (fun r => r.id) = [0, 1] := by
  have h : crawl 2 0 docOfW [[pW1, pW2]] = Except.ok stW2 := by decide
  exact ⟨h, C5_ids_sequential 2 0 docOfW [[pW1, pW2]] stW2 h, by decide⟩

/-- C6: every successful per-item pass extracts exactly one reward per pledge
block after the first, in document order (the emitted list is the ordered
mapE image of pledges[1:]), so its length is the block count minus one and a
document with zero or one pledge blocks yields no reward. -/
theorem C6_rewards_skip_first (cnt now : Int) (docOf : String → DetailDoc) (p : FeedItem)
    (r : Record) (c' : Int) (h : crawl_project cnt now docOf p = Except.ok (r, c')) :
    mapE extract_reward ((docOf (project_url p.url)).pledges.drop 1) = Except.ok r.rewards
    ∧ r.rewards.length = (docOf (project_url p.url)).pledges.length - 1
    ∧ ((docOf (project_url p.url)).pledges.length ≤ 1 → r.rewards = []) := by
  obtain ⟨-, -, -, -, hm⟩ := crawl_project_ok cnt now docOf p r c' h
  refine ⟨hm, ?_, ?_⟩
  · have hl := mapE_ok_length extract_reward _ _ hm
    simpa using hl
  · intro hle
    rw [List.drop_eq_nil_of_le hle] at hm
    unfold mapE at hm
    exact (Except.ok.inj hm).symm

/-- C6, witness: a document with pledge blocks [first, good] yields exactly
the reward of the second block; a document with only the first block yields
no reward. -/
theorem C6_witness :
    crawl_project (-1) 0 docOfA pW1 = Except.ok (recA, 0)
    ∧ recA.rewards.length = (docOfA (project_url pW1.url)).pledges.length - 1
    ∧ recA.rewards = [rwGood]
    ∧ crawl_project (-1) 0 docOfB pW1 = Except.ok (recB, 0)
    ∧ recB.rewards = [] := by
  have hA : crawl_project (-1) 0 docOfA pW1 = Except.ok (recA, 0) := by decide
  have hB : crawl_project (-1) 0 docOfB pW1 = Except.ok (recB, 0) := by decide
  exact ⟨hA, (C6_rewards_skip_first (-1) 0 docOfA pW1 recA 0 hA).2.1, by decide, hB,
    (C6_rewards_skip_first (-1) 0 docOfB pW1 recB 0 hB).2.2 (by decide)⟩

/-- C7, counterexample: a deadline one second in the past gives DaysToGo = -1,
while truncation toward zero of the same difference is 0 — the code floors
(timedelta.days), it does not truncate, so a sub-day overdue difference is
not 0. -/
theorem C7_counterexample :
    project_days 0 1 = -1 ∧ Int.tdiv (0 - 1) 86400 = 0 := by
  refine ⟨by decide, by decide⟩

/-- C7, amended: project_days is the floor of the second difference by 86400:
a passed deadline gives a negative value, a nonnegative difference below one
day gives 0, and a negative difference of less than one day gives -1 (not 0:
floor, not truncation toward zero). -/
theorem C7_days_floor (deadline now : Int) :
    (deadline < now → project_days deadline now < 0)
    ∧ (0 ≤ deadline - now → deadline - now < 86400 → project_days deadline now = 0)
    ∧ (-86400 < deadline - now → deadline - now < 0 → project_days deadline now = -1) := by
  unfold project_days
  rw [Int.fdiv_eq_ediv _ (by norm_num)]
  refine ⟨fun h1 => ?_, fun h1 h2 => ?_, fun h1 h2 => ?_⟩ <;> omega

/-- C7, witness: the three branches at concrete clock values. -/
theorem C7_witness :
    (0 : Int) < 1 ∧ project_days 0 1 < 0
    ∧ project_days 86399 0 = 0
    ∧ project_days 0 1 = -1 := by
  exact ⟨by decide, (C7_days_floor 0 1).1 (by decide),
    (C7_days_floor 86399 0).2.1 (by decide) (by decide),
    (C7_days_floor 0 1).2.2 (by decide) (by decide)⟩

/-- C8: a reward extractor failure fails the whole item (a succeeding item
ran every extractor), the numeric-parse path of TotalPossibleBackers is the
one contained failure (it yields -2, not an error), a failing item aborts the
whole crawl with its error, and an aborted crawl writes no output. -/
theorem C8_extraction_error_aborts (q : Nat) (now : Int) (docOf : String → DetailDoc)
    (st : CrawlState) (p : FeedItem) (rest : List FeedItem) (pgs pages : List (List FeedItem))
    (e : String) (d : Pledge) (rwd : Reward) (bs : BackerStats) (t : String) :
    (extract_reward d = Except.ok rwd →
      pledge_text d = Except.ok rwd.text ∧ pledge_price d = Except.ok rwd.price
      ∧ pledge_backers d = Except.ok rwd.numBackers
      ∧ pledge_total_backers d = Except.ok rwd.totalPossibleBackers)
    ∧ (d.backerStats = some bs → bs.limit = some t →
        pyTrim t.data ≠ "Reward no longer available".data →
        pyInt (((pySplitSpace (pyTrim t.data)).getLastD []).dropLast) = none →
        pledge_total_backers d = Except.ok (-2))
    ∧ (project_url p.url ∉ st.crawled → crawl_project st.cnt now docOf p = Except.error e →
        crawlPages q now docOf st ((p :: rest) :: pgs) = Except.error e)
    ∧ (crawl q now docOf pages = Except.error e →
        write_output (crawl q now docOf pages) = none) := by
  refine ⟨?_, ?_, ?_, ?_⟩
  · intro h
    unfold extract_reward at h
    split at h
    next e1 h1 => exact Except.noConfusion h
    next t1 h1 =>
      split at h
      next e2 h2 => exact Except.noConfusion h
      next pr h2 =>
        split at h
        next e3 h3 => exact Except.noConfusion h
        next nb h3 =>
          split at h
          next e4 h4 => exact Except.noConfusion h
          next tb h4 =>
            injection h with h5
            subst h5
            exact ⟨h1, h2, h3, h4⟩
  · intro h1 h2 h3 h4
    simp only [List.getLastD_eq_getLast?] at h4
    simp [pledge_total_backers, h1, h2, h3, h4]
  · intro hmem hcp
    simp [crawlPages, crawlItems, hmem, hcp]
  · intro h
    simp [write_output, h]

/-- C8, witness: a pledge block with no currency-conversion span raises
AttributeError in pledge_price; the item fails, the run aborts with that
error and nothing is written. -/
theorem C8_witness :
    crawl_project (-1) 0 docOfBad pW1 = Except.error "AttributeError"
    ∧ crawlPages 1 0 docOfBad ⟨[], [], -1⟩ [[pW1]] = Except.error "AttributeError"
    ∧ write_output (crawl 1 0 docOfBad [[pW1]]) = none := by
  have h := C8_extraction_error_aborts 1 0 docOfBad ⟨[], [], -1⟩ pW1 [] [] [[pW1]]
    "AttributeError" plBad rwGood { backerCount := none, limit := none } ""
  exact ⟨by decide, h.2.2.1 (by decide) (by decide), h.2.2.2 (by decide)⟩

/-- C9, counterexample: the Text extractor returns the raw document verbatim
at every input; it offers no configuration, so no configuration returns the
plain-text rendering (here they differ). -/
theorem C9_counterexample :
    project_text "<p>hi</p>" = "<p>hi</p>"
    ∧ toPlainText "<p>hi</p>" = "hi"
    ∧ project_text "<p>hi</p>" ≠ toPlainText "<p>hi</p>" := by
  refine ⟨by decide, by decide, by decide⟩

/-- C9, amended: the Text field of every emitted record is the raw fetched
detail document (the html2text conversion is commented out and no boolean
option exists). -/
theorem C9_text_always_raw (cnt now : Int) (docOf : String → DetailDoc) (p : FeedItem)
    (r : Record) (c' : Int) (h : crawl_project cnt now docOf p = Except.ok (r, c')) :
    r.text = project_text (docOf (project_url p.url)).html :=
  (crawl_project_ok cnt now docOf p r c' h).2.2.2.1

/-- C9, witness: a concrete item whose record carries the raw html. -/
theorem C9_witness :
    crawl_project (-1) 0 docOfW pW1 = Except.ok (recW1, 0)
    ∧ recW1.text = project_text (docOfW (project_url pW1.url)).html := by
  have h : crawl_project (-1) 0 docOfW pW1 = Except.ok (recW1, 0) := by decide
  exact ⟨h, C9_text_always_raw (-1) 0 docOfW pW1 recW1 0 h⟩

/-- C10: get_digits is partial — an input with no digit character raises
(int('') fails), an input with a digit yields the integer read off the
digits in order, and a currency-conversion text without digits aborts the
whole item extraction. -/
theorem C10_digits_domain :
    (∀ s : String, (∀ c ∈ s.data, ¬ c.isDigit) → get_digits s = Except.error "ValueError")
    ∧ (∀ s : String, (∃ c ∈ s.data, c.isDigit) →
        get_digits s = Except.ok (digitsToNat (s.data.filter Char.isDigit)))
    ∧ (∀ (p : Pledge) (dsc t : String), p.description = some dsc → p.currency = some t →
        (∀ c ∈ pyTrim t.data, ¬ c.isDigit) → extract_reward p = Except.error "ValueError") := by
  have h1 : ∀ s : String, (∀ c ∈ s.data, ¬ c.isDigit) →
      get_digits s = Except.error "ValueError" := by
    intro s h
    unfold get_digits
    have hfil : s.data.filter Char.isDigit = [] := List.filter_eq_nil_iff.mpr h
    simp [hfil]
  refine ⟨h1, ?_, ?_⟩
  · intro s h
    unfold get_digits
    have hne : s.data.filter Char.isDigit ≠ [] := by
      obtain ⟨c, hc, hd⟩ := h
      intro hcon
      exact (List.filter_eq_nil_iff.mp hcon c hc) hd
    simp [List.isEmpty_iff, hne]
  · intro p dsc t hd hc hnd
    have hge : get_digits ⟨pyTrim t.data⟩ = Except.error "ValueError" := h1 _ hnd
    simp [extract_reward, pledge_text, pledge_price, hd, hc, hge]

/-- C10, witness: "abc" fails, "a1b2" yields 12, and a currency text "$$"
with no digit fails the whole reward extraction. -/
theorem C10_witness :
    get_digits "abc" = Except.error "ValueError"
    ∧ get_digits "a1b2" = Except.ok 12
    ∧ extract_reward plNoDigit = Except.error "ValueError" := by
  refine ⟨C10_digits_domain.1 "abc" (by decide), ?_,
    C10_digits_domain.2.2 plNoDigit "x" "$$" rfl rfl (by decide)⟩
  have h := C10_digits_domain.2.1 "a1b2" (by decide)
  exact h.trans (by decide)
